import Mathlib

/-!
# WROOM_ESP32 pin access controller (wroom_esp32.hpp)

A shallow embedding of the class OAI_PINS_API and of the data it owns.

* The controller state is the pair of structs the class holds
  (OAI_PINS_DATA behind the pointer pin_data, and pin_action_data).
* The Arduino primitives (pinMode, digitalWrite, digitalRead, delay,
  Serial.println) are recorded, in call order, in a trace of events; the level
  that digitalRead returns is chosen by a driver, an arbitrary function of the
  trace so far and of the pin number.
* exit(EXIT_FAILURE) ends the run: an operation yields either returned or
  exited, and nothing is executed after exited.
* The array pin_access has 15 elements.  Two places of the source index it
  with a value that can be 15 (finalize_pins always does so when its scan finds
  nothing; pin_set_action and set_pin_access do so for a pin that is not in
  pins).  The word found there is not fixed by the program text, so the state
  carries it as the field past_end, a raw enum value.
-/

namespace WROOM_ESP32

/-! ## Data model -/

/-- The enum class OAI_PINS (source lines 11-29). -/
inductive OAI_PINS
  | OAI_PIN_NONE
  | D2 | D4 | D5 | D12 | D13 | D14 | D15 | D18 | D19
  | D21 | D22 | D23 | D25 | D26 | D27
  deriving DecidableEq, Repr

/-- The enumerator values of OAI_PINS, as written in the source. -/
def OAI_PINS.toNat : OAI_PINS → Nat
  | .OAI_PIN_NONE => 0x0
  | .D2 => 0x02
  | .D4 => 0x04
  | .D5 => 0x05
  | .D12 => 0x0C
  | .D13 => 0x0D
  | .D14 => 0x0E
  | .D15 => 0x0F
  | .D18 => 0x12
  | .D19 => 0x13
  | .D21 => 0x15
  | .D22 => 0x16
  | .D23 => 0x17
  | .D25 => 0x19
  | .D26 => 0x1A
  | .D27 => 0x1B

/-- The cast (unsigned char)pin that every driver call applies to its pin. -/
def pin_number (pin : OAI_PINS) : Nat := pin.toNat % 2 ^ 8

/-- The enum access (source lines 31-37). -/
inductive access
  | WRITE
  | READ
  | READ_AND_WRITE
  | NONE
  deriving DecidableEq, Repr

/-- The enumerator values of access: declaration order, starting at 0. -/
def access.toNat : access → Nat
  | .WRITE => 0
  | .READ => 1
  | .READ_AND_WRITE => 2
  | .NONE => 3

/-- The two pin directions of Arduino.h that the source passes to pinMode. -/
inductive Direction
  | INPUT
  | OUTPUT
  deriving DecidableEq, Repr

/-- The status values of cstdlib that exit can be given. -/
inductive ExitStatus
  | EXIT_SUCCESS
  | EXIT_FAILURE
  deriving DecidableEq, Repr

/-- OAI_PINS_DATA::pins, the constant array of the 15 eligible pins
(source lines 41-47). -/
def pins : List OAI_PINS :=
  [ .D2, .D4, .D5,
    .D12, .D13, .D14,
    .D15, .D18, .D19,
    .D21, .D22, .D23,
    .D25, .D26, .D27 ]

/-- The mutable part of struct OAI_PINS_DATA (source lines 39-62): the 15
declared modes, the finalization flag, and past_end, the raw word the program
gets when it indexes pin_access at 15, one past its last element. -/
structure OAI_PINS_DATA where
  pin_access : Fin 15 → access
  past_end : Nat
  pin_access_finalized : Bool

/-- The struct OAI_PIN_ACTION_DATA (source lines 67-72). -/
structure OAI_PIN_ACTION_DATA where
  pin : OAI_PINS
  action : access
  data : Bool
  deriving DecidableEq, Repr

/-- The data members of class OAI_PINS_API (source lines 77-82). -/
structure OAI_PINS_API where
  pin_data : OAI_PINS_DATA
  pin_action_data : OAI_PIN_ACTION_DATA

/-- One call of an external primitive.  digitalRead carries the level it
returned. -/
inductive Event
  | pinMode (pin : Nat) (mode : Direction)
  | digitalWrite (pin : Nat) (val : Bool)
  | digitalRead (pin : Nat) (val : Bool)
  | delay (ms : Nat)
  | println (msg : String)
  deriving DecidableEq, Repr

/-- The pin driver seen from the program: the level digitalRead returns, given
every call made so far and the pin number asked for. -/
abbrev Driver := List Event → Nat → Bool

/-- A controller together with the calls it has made so far, oldest first. -/
structure World where
  api : OAI_PINS_API
  trace : List Event

/-- How a member function ends: it returns, or the process has been ended by
exit with the given status. -/
inductive Result
  | returned (w : World)
  | exited (status : ExitStatus) (w : World)

/-- Sequencing: the continuation runs only if the first part returned. -/
def Result.andThen (r : Result) (f : World → Result) : Result :=
  match r with
  | .returned w => f w
  | .exited st w => .exited st w

/-- The state a run is in when it ends, either way. -/
def Result.world : Result → World
  | .returned w => w
  | .exited _ w => w

/-- Whether an event is a call into the pin driver (pinMode, digitalWrite or
digitalRead). -/
def Event.isDriverCall : Event → Bool
  | .pinMode _ _ => true
  | .digitalWrite _ _ => true
  | .digitalRead _ _ => true
  | .delay _ => false
  | .println _ => false

/-- Whether an event is a level read or a level write. -/
def Event.isReadOrWrite : Event → Bool
  | .digitalWrite _ _ => true
  | .digitalRead _ _ => true
  | _ => false

/-- Whether an event is a diagnostic line. -/
def Event.isDiagnostic : Event → Bool
  | .println _ => true
  | _ => false

/-! ## The constructor and the member functions -/

/-- The default member initializers (source lines 49-61, 78-82): every slot
NONE, flag false, empty action record.  The argument is the word lying past
the array. -/
def OAI_PINS_API.new (past_end : Nat) : OAI_PINS_API :=
  { pin_data :=
      { pin_access := fun _ => access.NONE
        past_end := past_end
        pin_access_finalized := false }
    pin_action_data :=
      { pin := OAI_PINS.OAI_PIN_NONE
        action := access.NONE
        data := false } }

/-- A freshly constructed controller that has made no call yet. -/
def World.fresh (past_end : Nat) : World :=
  { api := OAI_PINS_API.new past_end, trace := [] }

/-- The rvalue pin_data->pin_access[i] as a raw enum value. -/
def OAI_PINS_DATA.read_access (d : OAI_PINS_DATA) (i : Nat) : Nat :=
  if h : i < 15 then (d.pin_access ⟨i, h⟩).toNat else d.past_end

/-- The assignment pin_data->pin_access[i] = a. -/
def OAI_PINS_DATA.write_access (d : OAI_PINS_DATA) (i : Nat) (a : access) :
    OAI_PINS_DATA :=
  if h : i < 15 then
    { d with pin_access := Function.update d.pin_access ⟨i, h⟩ a }
  else
    { d with past_end := a.toNat }

/-- The loop shape shared by pin_set_action, set_pin_access and finalize_pins:
for(; i < 0xF; i++) if(hit i) break;  The first argument counts the
iterations left (0xF - i); the result is the value of i after the loop. -/
def scan (hit : Nat → Bool) : Nat → Nat → Nat
  | 0, i => i
  | n + 1, i => if hit i then i else scan hit n (i + 1)

/-- The index loop over pins (source lines 107-109 and 206-208). -/
def pin_index (pin : OAI_PINS) : Nat :=
  scan (fun index => decide (pins[index]? = some pin)) 0xF 0

/-- The index loop over pin_access (source lines 217-219). -/
def first_declared (d : OAI_PINS_DATA) : Nat :=
  scan (fun i => decide (d.read_access i ≠ access.NONE.toNat)) 0xF 0

/-- The accessor last_pin_access (source lines 84-85). -/
def last_pin_access (a : OAI_PINS_API) : access := a.pin_action_data.action

/-- The accessor last_pin (source lines 87-88). -/
def last_pin (a : OAI_PINS_API) : OAI_PINS := a.pin_action_data.pin

/-- The accessor last_pin_data (source lines 90-91). -/
def last_pin_data (a : OAI_PINS_API) : Bool := a.pin_action_data.data

/-- Appends one call to the trace. -/
def World.emit (w : World) (e : Event) : World :=
  { w with trace := w.trace ++ [e] }

/-- The function set_pin_action (source lines 93-103). -/
def set_pin_action (pin : OAI_PINS) (action : access) (w : World) : World :=
  match action with
  | .WRITE => w.emit (.pinMode (pin_number pin) .OUTPUT)
  | .READ => w.emit (.pinMode (pin_number pin) .INPUT)
  | .READ_AND_WRITE => w.emit (.pinMode (pin_number pin) .INPUT)
  | .NONE => w

/-- The function pin_set_action (source lines 105-112); the result is the raw
enum value found at the index the loop stopped at. -/
def pin_set_action (a : OAI_PINS_API) (pin : OAI_PINS) : Nat :=
  a.pin_data.read_access (pin_index pin)

/-- The function finalize_pins (source lines 214-229). -/
def finalize_pins (w : World) : Result :=
  let i := first_declared w.api.pin_data
  if i = 0xF ∧ w.api.pin_data.read_access i = access.NONE.toNat then
    .exited .EXIT_FAILURE (w.emit (.println "No pins got initialized."))
  else
    .returned
      { w with api := { w.api with pin_data :=
          { w.api.pin_data with pin_access_finalized := true } } }

/-- The common prologue of pin_read and pin_write (source lines 122-123 and
141-142). -/
def auto_finalize (w : World) : Result :=
  if !w.api.pin_data.pin_access_finalized then finalize_pins w else .returned w

/-- The function pin_read (source lines 120-128). -/
def pin_read (drv : Driver) (pin : OAI_PINS) (w : World) : Result :=
  (auto_finalize w).andThen fun w1 =>
    let level := drv w1.trace (pin_number pin)
    .returned
      { api := { w1.api with pin_action_data :=
          { pin := pin, action := .READ, data := level } }
        trace := w1.trace ++ [.digitalRead (pin_number pin) level] }

/-- The function pin_read_data (source lines 131-137), a signed char. -/
def pin_read_data (a : OAI_PINS_API) : Int :=
  if last_pin_access a = .READ then
    (if last_pin_data a then 1 else 0)
  else
    -1

/-- The function pin_write (source lines 139-148). -/
def pin_write (pin : OAI_PINS) (data : Bool) (w : World) : Result :=
  (auto_finalize w).andThen fun w1 =>
    .returned
      { api := { w1.api with pin_action_data :=
          { pin := pin, action := .WRITE, data := data } }
        trace := w1.trace ++ [.digitalWrite (pin_number pin) data] }

/-- The switch after the label do_rest in pin_perform (source lines 174-189). -/
def do_rest (drv : Driver) (pin : OAI_PINS) (action : access) (data : Bool)
    (w : World) : Result :=
  match action with
  | .READ => pin_read drv pin w
  | .WRITE => pin_write pin data w
  | .READ_AND_WRITE =>
      (pin_write pin data w).andThen fun w1 =>
        .returned (set_pin_action pin .READ (w1.emit (.delay 3000)))
  | .NONE => .returned w

/-- The function pin_perform (source lines 156-190). -/
def pin_perform (drv : Driver) (pin : OAI_PINS) (action : access) (data : Bool)
    (w : World) : Result :=
  if last_pin w.api ≠ .OAI_PIN_NONE then
    if pin_set_action w.api pin = access.READ_AND_WRITE.toNat then
      let w1 :=
        if (last_pin w.api = pin ∧ last_pin_access w.api ≠ action)
            ∨ last_pin w.api ≠ pin then
          (if action = .READ_AND_WRITE then set_pin_action pin .WRITE w
           else set_pin_action pin action w)
        else w
      do_rest drv pin action data w1
    else if pin_set_action w.api pin ≠ action.toNat then
      .returned w
    else
      do_rest drv pin action data w
  else
    do_rest drv pin action data w

/-- The function set_pin_access (source lines 192-212). -/
def set_pin_access (pin : OAI_PINS) (pin_access : access) (w : World) : World :=
  if w.api.pin_data.pin_access_finalized then
    w.emit (.println "Cannot set pin access after the pins have been finalized")
  else if pin_access = .NONE then
    w
  else
    let index := pin_index pin
    set_pin_action pin pin_access
      { w with api := { w.api with pin_data :=
          w.api.pin_data.write_access index pin_access } }

/-! ## States used to name the effect of a call, and sample runs -/

/-- The state with the finalization flag set and everything else as it was:
what the last line of finalize_pins (source line 228) produces. -/
def World.finalized (w : World) : World :=
  { w with api := { w.api with pin_data :=
      { w.api.pin_data with pin_access_finalized := true } } }

/-- A driver on which every pin always reads high. -/
def always_high : Driver := fun _ _ => true

/-- A fresh controller on which D2 was declared WRITE, D4 READ and D5
READ_AND_WRITE; not yet finalized, no action yet. -/
def demo_configured : World :=
  set_pin_access .D5 .READ_AND_WRITE
    (set_pin_access .D4 .READ (set_pin_access .D2 .WRITE (World.fresh 0)))

/-- The state demo_configured after pin_write(D2, true): finalized, with
(D2, WRITE, true) as the last action. -/
def demo_running : World := (pin_write .D2 true demo_configured).world

/-- The state demo_running after pin_perform(D5, READ_AND_WRITE, true): the
last action is (D5, WRITE, true) and the last pinMode on D5 is INPUT. -/
def demo_after_combined : World :=
  (pin_perform always_high .D5 .READ_AND_WRITE true demo_running).world

/-! ## The public interface as a whole -/

/-- One call of a public member function, with its arguments. -/
inductive Op
  | set_pin_access (pin : OAI_PINS) (pin_access : access)
  | finalize_pins
  | pin_read (pin : OAI_PINS)
  | pin_read_data
  | pin_write (pin : OAI_PINS) (data : Bool)
  | pin_perform (pin : OAI_PINS) (action : access) (data : Bool)

/-- Runs one public call.  pin_read_data has no effect on the state; its return
value is pin_read_data of the controller. -/
def run_op (drv : Driver) : Op → World → Result
  | .set_pin_access pin mode, w => .returned (set_pin_access pin mode w)
  | .finalize_pins, w => finalize_pins w
  | .pin_read pin, w => pin_read drv pin w
  | .pin_read_data, w => .returned w
  | .pin_write pin data, w => pin_write pin data w
  | .pin_perform pin action data, w => pin_perform drv pin action data w

/-- Runs a sequence of public calls, stopping at the first one that exits. -/
def run_ops (drv : Driver) : List Op → World → Result
  | [], w => .returned w
  | op :: rest, w => (run_op drv op w).andThen (run_ops drv rest)

/-- A state is reachable when some sequence of public calls, all of which
return, leads to it from a freshly constructed controller. -/
def Reachable (drv : Driver) (w : World) : Prop :=
  ∃ (n : Nat) (ops : List Op), run_ops drv ops (World.fresh n) = .returned w

/-- The state a freshly constructed controller, on which nothing was declared
and whose word past the array is 0, is in after pin_read(D2). -/
def demo_unconfigured_read : World :=
  (pin_read always_high .D2 (World.fresh 0)).world

/-! ## Pin directions along a trace -/

/-- The mode of the most recent pinMode call on a pin, if there was one. -/
def last_direction (pin : Nat) (t : List Event) : Option Direction :=
  t.foldl
    (fun acc e =>
      match e with
      | .pinMode q m => if q = pin then some m else acc
      | _ => acc)
    none

/-- Whether one call respects the direction the pin was last given: a
digitalWrite on the pin needs OUTPUT, a digitalRead on the pin needs INPUT;
every other call is fine. -/
def call_matches_direction (pin : Nat) (before : List Event) : Event → Bool
  | .digitalWrite q _ =>
      if q = pin then decide (last_direction pin before = some .OUTPUT)
      else true
  | .digitalRead q _ =>
      if q = pin then decide (last_direction pin before = some .INPUT)
      else true
  | _ => true

/-- Whether every call of added, made in this order after the calls of before,
respects the direction of the pin at the moment it is made. -/
def direction_ok (pin : Nat) : List Event → List Event → Bool
  | _, [] => true
  | before, e :: rest =>
      call_matches_direction pin before e
        && direction_ok pin (before ++ [e]) rest

/-- The calls a run added to the trace it started from. -/
def added_calls (w : World) (r : Result) : List Event :=
  r.world.trace.drop w.trace.length

/-! ## The indices at which finalize_pins reads pin_access -/

/-- The indices the loop for(; i < 0xF; i++) if(hit i) break; evaluates its
test hit at, in order; same arguments as scan. -/
def scan_reads (hit : Nat → Bool) : Nat → Nat → List Nat
  | 0, _ => []
  | n + 1, i => i :: (if hit i then [] else scan_reads hit n (i + 1))

/-- The indices at which finalize_pins reads pin_data->pin_access, in order:
those of the loop (source lines 218-219), then, when the loop ended with
i == 0xF, the index i of the second operand of the test at line 222 (the
first operand being false skips it). -/
def finalize_pins_reads (d : OAI_PINS_DATA) : List Nat :=
  scan_reads (fun i => decide (d.read_access i ≠ access.NONE.toNat)) 0xF 0
    ++ (if first_declared d = 0xF then [first_declared d] else [])

/-! ## Lemmas on the lookup loops and on finalization -/

theorem access_toNat_inj (a b : access) : a.toNat = b.toNat ↔ a = b := by
  cases a <;> cases b <;> simp [access.toNat]

theorem level_ne_sentinel (b : Bool) :
    (if b = true then (1 : Int) else 0) ≠ -1 := by
  cases b <;> decide

/-- The index loop over pins stops at the position of a catalog pin. -/
theorem pin_index_of_catalog (i : Fin 15) (p : OAI_PINS)
    (hp : pins[i.val]? = some p) : pin_index p = i.val := by
  fin_cases i <;> simp [pins] at hp <;> subst hp <;> rfl

theorem catalog_ne_none (i : Fin 15) (p : OAI_PINS)
    (hp : pins[i.val]? = some p) : p ≠ .OAI_PIN_NONE := by
  fin_cases i <;> simp [pins] at hp <;> subst hp <;> decide

theorem read_access_catalog (d : OAI_PINS_DATA) (i : Fin 15) :
    d.read_access i.val = (d.pin_access i).toNat := by
  simp [OAI_PINS_DATA.read_access]

/-- For a catalog pin, pin_set_action returns the mode stored in its slot. -/
theorem pin_set_action_catalog (a : OAI_PINS_API) (i : Fin 15) (p : OAI_PINS)
    (hp : pins[i.val]? = some p) :
    pin_set_action a p = (a.pin_data.pin_access i).toNat := by
  simp [pin_set_action, pin_index_of_catalog i p hp, read_access_catalog]

theorem scan_le_of_hit (hit : Nat → Bool) (n i j : Nat) (h1 : i ≤ j)
    (h2 : j < i + n) (hj : hit j = true) : scan hit n i ≤ j := by
  induction n generalizing i with
  | zero => omega
  | succ n ih =>
    unfold scan
    split
    · exact h1
    · next hi =>
      have hne : i ≠ j := by
        intro h
        subst h
        exact hi hj
      exact ih (i + 1) (by omega) (by omega)

theorem scan_eq_of_no_hit (hit : Nat → Bool) (n i : Nat)
    (h : ∀ j, i ≤ j → j < i + n → hit j = false) : scan hit n i = i + n := by
  induction n generalizing i with
  | zero => rfl
  | succ n ih =>
    unfold scan
    rw [if_neg (by simp [h i (le_refl i) (by omega)])]
    rw [ih (i + 1) (fun j h1 h2 => h j (by omega) (by omega))]
    omega

theorem first_declared_lt (d : OAI_PINS_DATA) (i : Fin 15)
    (h : d.pin_access i ≠ access.NONE) : first_declared d < 15 := by
  have := scan_le_of_hit
    (fun k => decide (d.read_access k ≠ access.NONE.toNat)) 0xF 0 i.val
    (Nat.zero_le _) (by have := i.isLt; omega)
    (by simpa [read_access_catalog, access_toNat_inj] using h)
  have := i.isLt
  unfold first_declared
  omega

/-- With a declared pin, finalize_pins sets the flag and returns. -/
theorem finalize_pins_of_declared (w : World) (i : Fin 15)
    (h : w.api.pin_data.pin_access i ≠ access.NONE) :
    finalize_pins w = .returned w.finalized := by
  have hlt := first_declared_lt w.api.pin_data i h
  unfold finalize_pins
  simp only []
  rw [if_neg]
  · rfl
  · omega

theorem auto_finalize_of_declared (w : World) (i : Fin 15)
    (h : w.api.pin_data.pin_access i ≠ access.NONE) :
    auto_finalize w = .returned w.finalized := by
  unfold auto_finalize
  cases hf : w.api.pin_data.pin_access_finalized
  · simpa using finalize_pins_of_declared w i h
  · simp [World.finalized, ← hf]

theorem pin_write_of_declared (w : World) (i : Fin 15)
    (h : w.api.pin_data.pin_access i ≠ access.NONE) (pin : OAI_PINS)
    (data : Bool) :
    pin_write pin data w = .returned
      { api := { w.finalized.api with pin_action_data :=
          { pin := pin, action := .WRITE, data := data } }
        trace := w.trace ++ [.digitalWrite (pin_number pin) data] } := by
  simp [pin_write, auto_finalize_of_declared w i h, Result.andThen,
    World.finalized]

theorem pin_read_of_declared (drv : Driver) (w : World) (i : Fin 15)
    (h : w.api.pin_data.pin_access i ≠ access.NONE) (pin : OAI_PINS) :
    pin_read drv pin w = .returned
      { api := { w.finalized.api with pin_action_data :=
          { pin := pin, action := .READ,
            data := drv w.trace (pin_number pin) } }
        trace := w.trace ++
          [.digitalRead (pin_number pin) (drv w.trace (pin_number pin))] } := by
  simp [pin_read, auto_finalize_of_declared w i h, Result.andThen,
    World.finalized]

theorem pin_perform_empty_record (drv : Driver) (p : OAI_PINS) (a : access)
    (d : Bool) (w : World) (h : last_pin w.api = .OAI_PIN_NONE) :
    pin_perform drv p a d w = do_rest drv p a d w := by
  unfold pin_perform
  rw [if_neg (by simp [h])]

theorem pin_perform_matching_mode (drv : Driver) (w : World) (i : Fin 15)
    (p : OAI_PINS) (a : access) (d : Bool) (hp : pins[i.val]? = some p)
    (hlast : last_pin w.api ≠ .OAI_PIN_NONE)
    (hm : w.api.pin_data.pin_access i = a) (hrw : a ≠ .READ_AND_WRITE) :
    pin_perform drv p a d w = do_rest drv p a d w := by
  unfold pin_perform
  rw [if_pos hlast, pin_set_action_catalog w.api i p hp, hm]
  rw [if_neg (by simpa [access_toNat_inj] using hrw), if_neg (by simp)]

theorem set_pin_access_unfinalized (w : World) (i : Fin 15) (p : OAI_PINS)
    (m : access) (hp : pins[i.val]? = some p)
    (hfin : w.api.pin_data.pin_access_finalized = false)
    (hm : m ≠ .NONE) :
    set_pin_access p m w =
      set_pin_action p m
        { api := { w.api with pin_data := { w.api.pin_data with
            pin_access := Function.update w.api.pin_data.pin_access i m } }
          trace := w.trace } := by
  unfold set_pin_access
  simp [hfin, hm, pin_index_of_catalog i p hp, OAI_PINS_DATA.write_access]

/-! ## pin_perform on a pin declared for one direction only -/

/-- C1, as stated, fails before the first action.  On demo_configured the
action record is still empty, D2 (slot 0) is declared WRITE and D4 (slot 1) is
declared READ; pin_perform(D2, READ, false) calls digitalRead(2) and replaces
the record by (D2, READ, true), and pin_perform(D4, WRITE, true) calls
digitalWrite(4, true). -/
theorem pin_perform_first_action_skips_mode_check :
    pins[0]? = some OAI_PINS.D2 ∧
    demo_configured.api.pin_data.pin_access 0 = access.WRITE ∧
    (pin_perform always_high .D2 .READ false demo_configured).world.trace
      = demo_configured.trace ++ [Event.digitalRead 2 true] ∧
    demo_configured.api.pin_action_data
      = { pin := .OAI_PIN_NONE, action := .NONE, data := false } ∧
    (pin_perform always_high .D2 .READ false
        demo_configured).world.api.pin_action_data
      = { pin := .D2, action := .READ, data := true } ∧
    pins[1]? = some OAI_PINS.D4 ∧
    demo_configured.api.pin_data.pin_access 1 = access.READ ∧
    (pin_perform always_high .D4 .WRITE true demo_configured).world.trace
      = demo_configured.trace ++ [Event.digitalWrite 4 true] := by
  decide

/-- C1, amended.  In every state whose last-action record is non-empty (its
pin is not OAI_PIN_NONE), for every driver and every catalog pin p (the
identifier at index i of pins): if slot i is WRITE then pin_perform(p, READ, d)
returns with the state and the trace exactly as they were, so it makes no
driver call and leaves the record unchanged; if slot i is READ then
pin_perform(p, WRITE, d) does the same. -/
theorem pin_perform_rejects_wrong_direction (drv : Driver) (w : World)
    (i : Fin 15) (p : OAI_PINS) (d : Bool)
    (hp : pins[i.val]? = some p)
    (hlast : last_pin w.api ≠ .OAI_PIN_NONE) :
    (w.api.pin_data.pin_access i = .WRITE →
      pin_perform drv p .READ d w = .returned w) ∧
    (w.api.pin_data.pin_access i = .READ →
      pin_perform drv p .WRITE d w = .returned w) := by
  constructor
  · intro hm
    unfold pin_perform
    rw [if_pos hlast, pin_set_action_catalog w.api i p hp, hm]
    rfl
  · intro hm
    unfold pin_perform
    rw [if_pos hlast, pin_set_action_catalog w.api i p hp, hm]
    rfl

/-- The amended C1 at demo_running: READ on the WRITE-only D2 and WRITE on the
READ-only D4 both return the state untouched. -/
theorem pin_perform_rejects_wrong_direction_witness :
    pins[0]? = some OAI_PINS.D2 ∧
    pins[1]? = some OAI_PINS.D4 ∧
    last_pin demo_running.api ≠ .OAI_PIN_NONE ∧
    demo_running.api.pin_data.pin_access 0 = .WRITE ∧
    demo_running.api.pin_data.pin_access 1 = .READ ∧
    pin_perform always_high .D2 .READ false demo_running
      = .returned demo_running ∧
    pin_perform always_high .D4 .WRITE true demo_running
      = .returned demo_running :=
  ⟨rfl, rfl, by decide, rfl, rfl,
    (pin_perform_rejects_wrong_direction always_high demo_running 0 .D2 false
      rfl (by decide)).1 rfl,
    (pin_perform_rejects_wrong_direction always_high demo_running 1 .D4 true
      rfl (by decide)).2 rfl⟩

/-! ## finalize_pins with nothing declared -/

/-- C2.  On a freshly constructed controller every slot is NONE, and
finalize_pins prints its diagnostic and exits with EXIT_FAILURE exactly when
the word it reads at pin_access[15] equals NONE (3).  For every other value of
that word (0, for one) it prints nothing, sets the finalization flag and
returns. -/
theorem finalize_pins_no_pins_depends_on_past_end (n : Nat) :
    (∀ i : Fin 15, (World.fresh n).api.pin_data.pin_access i = access.NONE) ∧
    finalize_pins (World.fresh n) =
      if n = access.NONE.toNat then
        Result.exited .EXIT_FAILURE
          { api := OAI_PINS_API.new n
            trace := [Event.println "No pins got initialized."] }
      else
        Result.returned
          { api :=
              { pin_data :=
                  { pin_access := fun _ => access.NONE
                    past_end := n
                    pin_access_finalized := true }
                pin_action_data :=
                  { pin := .OAI_PIN_NONE, action := .NONE, data := false } }
            trace := [] } := by
  refine ⟨fun _ => rfl, ?_⟩
  have h15 : first_declared (OAI_PINS_API.new n).pin_data = 15 := by
    unfold first_declared
    rw [scan_eq_of_no_hit]
    intro j _ hj
    have hj15 : j < 15 := by omega
    simp [OAI_PINS_DATA.read_access, OAI_PINS_API.new, hj15]
  have hr : (OAI_PINS_API.new n).pin_data.read_access 15 = n := by
    simp [OAI_PINS_DATA.read_access, OAI_PINS_API.new]
  unfold finalize_pins
  simp only [World.fresh, h15, hr]
  by_cases hn : n = 3 <;> simp [hn, access.toNat, World.emit, OAI_PINS_API.new]

/-! ## Write, then read, on a READ_AND_WRITE pin -/

/-- C3.  For every state, every driver and every catalog pin p (the identifier
at index i of pins) whose slot is READ_AND_WRITE, pin_perform(p, WRITE, true)
followed by pin_perform(p, READ, d) returns, and the calls it adds to the trace
are: possibly one pinMode(p, OUTPUT) (the re-arm of the first call), then
digitalWrite(p, true), pinMode(p, INPUT), digitalRead(p), in this order and
nothing else.  Afterwards pin_read_data() is 1 or 0 according to the level the
driver returned for that digitalRead, and is not -1. -/
theorem write_then_read_rearms_for_input (drv : Driver) (w : World)
    (i : Fin 15) (p : OAI_PINS) (d : Bool)
    (hp : pins[i.val]? = some p)
    (hm : w.api.pin_data.pin_access i = .READ_AND_WRITE) :
    ∃ (pre : List Event) (level : Bool) (w2 : World),
      (pre = [] ∨ pre = [Event.pinMode (pin_number p) .OUTPUT]) ∧
      level = drv (w.trace ++ pre ++
        [Event.digitalWrite (pin_number p) true,
         Event.pinMode (pin_number p) .INPUT]) (pin_number p) ∧
      (pin_perform drv p .WRITE true w).andThen (pin_perform drv p .READ d)
        = .returned w2 ∧
      w2.trace = w.trace ++ pre ++
        [Event.digitalWrite (pin_number p) true,
         Event.pinMode (pin_number p) .INPUT,
         Event.digitalRead (pin_number p) level] ∧
      pin_read_data w2.api = (if level then 1 else 0) ∧
      pin_read_data w2.api ≠ -1 := by
  have hne : p ≠ .OAI_PIN_NONE := catalog_ne_none i p hp
  have hdecl : w.api.pin_data.pin_access i ≠ .NONE := by rw [hm]; decide
  -- the second call, from any state whose last action is a write on p
  have second : ∀ (w1 : World), w1.api.pin_data.pin_access i = .READ_AND_WRITE →
      w1.api.pin_action_data = { pin := p, action := .WRITE, data := true } →
      pin_perform drv p .READ d w1 = .returned
        { api := { w1.finalized.api with pin_action_data :=
            { pin := p, action := .READ,
              data := drv (w1.trace ++ [Event.pinMode (pin_number p) .INPUT])
                (pin_number p) } }
          trace := w1.trace ++ [Event.pinMode (pin_number p) .INPUT,
            Event.digitalRead (pin_number p)
              (drv (w1.trace ++ [Event.pinMode (pin_number p) .INPUT])
                (pin_number p))] } := by
    intro w1 h1 h2
    have hd1 : (set_pin_action p .READ w1).api.pin_data.pin_access i
        ≠ .NONE := by
      simp [set_pin_action, World.emit, h1]
    unfold pin_perform
    simp only [last_pin, last_pin_access, h2, pin_set_action_catalog w1.api i p hp, h1]
    simp only [ne_eq, hne, not_false_eq_true, if_true, true_and, not_true_eq_false,
      or_false, if_false]
    show pin_read drv p (set_pin_action p .READ w1) = _
    rw [pin_read_of_declared drv _ i hd1]
    simp [set_pin_action, World.emit, World.finalized]
  -- the first call, with or without the re-arm for output
  have first : ∀ (w0 : World), w0.api = w.api →
      do_rest drv p .WRITE true w0 = .returned
        { api := { w0.finalized.api with pin_action_data :=
            { pin := p, action := .WRITE, data := true } }
          trace := w0.trace ++ [Event.digitalWrite (pin_number p) true] } := by
    intro w0 h0
    show pin_write p true w0 = _
    rw [pin_write_of_declared w0 i (by rw [h0]; exact hdecl)]
  -- both calls, given the state w0 in which the first one dispatches
  have both : ∀ (w0 : World), w0.api = w.api →
      pin_perform drv p .WRITE true w = do_rest drv p .WRITE true w0 →
      ∃ (level : Bool) (w2 : World),
        level = drv (w0.trace ++
          [Event.digitalWrite (pin_number p) true,
           Event.pinMode (pin_number p) .INPUT]) (pin_number p) ∧
        (pin_perform drv p .WRITE true w).andThen (pin_perform drv p .READ d)
          = .returned w2 ∧
        w2.trace = w0.trace ++
          [Event.digitalWrite (pin_number p) true,
           Event.pinMode (pin_number p) .INPUT,
           Event.digitalRead (pin_number p) level] ∧
        pin_read_data w2.api = (if level then 1 else 0) ∧
        pin_read_data w2.api ≠ -1 := by
    intro w0 h0 h1
    have hm0 : w0.api.pin_data.pin_access i = .READ_AND_WRITE := by
      rw [h0]; exact hm
    have e2 := second
      { api := { w0.finalized.api with pin_action_data :=
          { pin := p, action := .WRITE, data := true } }
        trace := w0.trace ++ [Event.digitalWrite (pin_number p) true] }
      (by simpa [World.finalized] using hm0) rfl
    have e1 : (pin_perform drv p .WRITE true w).andThen
        (pin_perform drv p .READ d) = pin_perform drv p .READ d
          { api := { w0.finalized.api with pin_action_data :=
              { pin := p, action := .WRITE, data := true } }
            trace := w0.trace ++ [Event.digitalWrite (pin_number p) true] } := by
      rw [h1, first w0 h0]
      rfl
    refine ⟨_, _, rfl, e1.trans e2, ?_, ?_, ?_⟩
    · simp [World.finalized]
    · simp [pin_read_data, last_pin_access, last_pin_data]
    · simp only [pin_read_data, last_pin_access, last_pin_data]
      exact level_ne_sentinel _
  by_cases hre : last_pin w.api ≠ .OAI_PIN_NONE ∧
      ((last_pin w.api = p ∧ last_pin_access w.api ≠ .WRITE)
        ∨ last_pin w.api ≠ p)
  · have h1 : pin_perform drv p .WRITE true w
        = do_rest drv p .WRITE true (set_pin_action p .WRITE w) := by
      unfold pin_perform
      rw [if_pos hre.1, pin_set_action_catalog w.api i p hp, hm, if_pos rfl]
      simp only [if_pos hre.2]
      rfl
    obtain ⟨level, w2, hl, hrun, htr, hdat, hne1⟩ := both (set_pin_action p .WRITE w) rfl h1
    refine ⟨[Event.pinMode (pin_number p) .OUTPUT], level, w2, Or.inr rfl,
      ?_, hrun, ?_, hdat, hne1⟩
    · simpa [set_pin_action, World.emit] using hl
    · simpa [set_pin_action, World.emit] using htr
  · have h1 : pin_perform drv p .WRITE true w
        = do_rest drv p .WRITE true w := by
      unfold pin_perform
      by_cases hl : last_pin w.api ≠ .OAI_PIN_NONE
      · rw [if_pos hl, pin_set_action_catalog w.api i p hp, hm, if_pos rfl]
        have h2 : ¬ ((last_pin w.api = p ∧ last_pin_access w.api ≠ .WRITE)
            ∨ last_pin w.api ≠ p) := fun h => hre ⟨hl, h⟩
        simp only [if_neg h2]
      · rw [if_neg hl]
    obtain ⟨level, w2, hl, hrun, htr, hdat, hne1⟩ := both w rfl h1
    refine ⟨[], level, w2, Or.inl rfl, ?_, hrun, ?_, hdat, hne1⟩
    · simpa using hl
    · simpa using htr

/-- C3 at demo_running, for D5 (slot 2, declared READ_AND_WRITE). -/
theorem write_then_read_rearms_for_input_witness :
    pins[2]? = some OAI_PINS.D5 ∧
    demo_running.api.pin_data.pin_access 2 = .READ_AND_WRITE ∧
    ∃ (pre : List Event) (level : Bool) (w2 : World),
      (pre = [] ∨ pre = [Event.pinMode (pin_number .D5) .OUTPUT]) ∧
      level = always_high (demo_running.trace ++ pre ++
        [Event.digitalWrite (pin_number .D5) true,
         Event.pinMode (pin_number .D5) .INPUT]) (pin_number .D5) ∧
      (pin_perform always_high .D5 .WRITE true demo_running).andThen
          (pin_perform always_high .D5 .READ false)
        = .returned w2 ∧
      w2.trace = demo_running.trace ++ pre ++
        [Event.digitalWrite (pin_number .D5) true,
         Event.pinMode (pin_number .D5) .INPUT,
         Event.digitalRead (pin_number .D5) level] ∧
      pin_read_data w2.api = (if level then 1 else 0) ∧
      pin_read_data w2.api ≠ -1 :=
  ⟨rfl, rfl,
    write_then_read_rearms_for_input always_high demo_running 2 .D5 false
      rfl rfl⟩

/-! ## The declare, write, read scenario -/

/-- C4.  On a freshly constructed controller, for every driver and catalog
pins A and B (at indices iA and iB of pins; the statement needs no
distinctness, so it covers every two distinct pins): after
set_pin_access(A, WRITE), set_pin_access(B, READ), pin_perform(A, WRITE, true)
and pin_perform(B, READ, false) the run has returned, the whole trace is
pinMode(A, OUTPUT), pinMode(B, INPUT), digitalWrite(A, true), digitalRead(B),
its read and write calls are exactly digitalWrite(A, true) then digitalRead(B),
and the record is (B, READ, level) with level the value the driver returned. -/
theorem declare_write_read_scenario (drv : Driver) (n : Nat)
    (iA iB : Fin 15) (A B : OAI_PINS)
    (hA : pins[iA.val]? = some A) (hB : pins[iB.val]? = some B) :
    ∃ (level : Bool) (w2 : World),
      level = drv
        [Event.pinMode (pin_number A) .OUTPUT,
         Event.pinMode (pin_number B) .INPUT,
         Event.digitalWrite (pin_number A) true] (pin_number B) ∧
      (pin_perform drv A .WRITE true
          (set_pin_access B .READ
            (set_pin_access A .WRITE (World.fresh n)))).andThen
          (pin_perform drv B .READ false)
        = .returned w2 ∧
      w2.trace =
        [Event.pinMode (pin_number A) .OUTPUT,
         Event.pinMode (pin_number B) .INPUT,
         Event.digitalWrite (pin_number A) true,
         Event.digitalRead (pin_number B) level] ∧
      w2.trace.filter Event.isReadOrWrite =
        [Event.digitalWrite (pin_number A) true,
         Event.digitalRead (pin_number B) level] ∧
      w2.api.pin_action_data = { pin := B, action := .READ, data := level } := by
  have hAne : A ≠ .OAI_PIN_NONE := catalog_ne_none iA A hA
  -- the two declarations
  have e1 := set_pin_access_unfinalized (World.fresh n) iA A .WRITE hA rfl
    (by decide)
  have e2 := set_pin_access_unfinalized
    (set_pin_access A .WRITE (World.fresh n)) iB B .READ hB
    (by rw [e1]; rfl) (by decide)
  have htr : (set_pin_access B .READ
      (set_pin_access A .WRITE (World.fresh n))).trace =
      [Event.pinMode (pin_number A) .OUTPUT,
       Event.pinMode (pin_number B) .INPUT] := by
    rw [e2, e1]; rfl
  have hrec : last_pin (set_pin_access B .READ
      (set_pin_access A .WRITE (World.fresh n))).api = .OAI_PIN_NONE := by
    rw [e2, e1]; rfl
  have hslot : (set_pin_access B .READ
      (set_pin_access A .WRITE (World.fresh n))).api.pin_data.pin_access iB
      = .READ := by
    rw [e2]; simp [set_pin_action, World.emit]
  generalize set_pin_access B .READ (set_pin_access A .WRITE (World.fresh n))
    = w0 at htr hrec hslot ⊢
  have hdecl : w0.api.pin_data.pin_access iB ≠ .NONE := by
    rw [hslot]; decide
  -- the write on A: the record is empty, so the call dispatches at once
  have eW : pin_perform drv A .WRITE true w0 = pin_write A true w0 :=
    pin_perform_empty_record drv A .WRITE true w0 hrec
  rw [eW, pin_write_of_declared w0 iB hdecl A true]
  simp only [Result.andThen]
  -- the read on B: B is declared READ, the requested action
  rw [pin_perform_matching_mode drv _ iB B .READ false hB
    (by simpa [last_pin] using hAne) (by simpa [World.finalized] using hslot)
    (by decide)]
  show ∃ level w2, _ ∧ pin_read drv B _ = _ ∧ _
  rw [pin_read_of_declared drv _ iB (by simpa [World.finalized] using hdecl) B]
  refine ⟨_, _, rfl, rfl, ?_, ?_, ?_⟩
  · simp [htr, World.finalized]
  · simp [htr, World.finalized, Event.isReadOrWrite]
  · simp [htr, World.finalized]

/-- C4 for A = D2 and B = D4. -/
theorem declare_write_read_scenario_witness :
    pins[0]? = some OAI_PINS.D2 ∧ pins[1]? = some OAI_PINS.D4 ∧
    ∃ (level : Bool) (w2 : World),
      level = always_high
        [Event.pinMode (pin_number .D2) .OUTPUT,
         Event.pinMode (pin_number .D4) .INPUT,
         Event.digitalWrite (pin_number .D2) true] (pin_number .D4) ∧
      (pin_perform always_high .D2 .WRITE true
          (set_pin_access .D4 .READ
            (set_pin_access .D2 .WRITE (World.fresh 0)))).andThen
          (pin_perform always_high .D4 .READ false)
        = .returned w2 ∧
      w2.trace =
        [Event.pinMode (pin_number .D2) .OUTPUT,
         Event.pinMode (pin_number .D4) .INPUT,
         Event.digitalWrite (pin_number .D2) true,
         Event.digitalRead (pin_number .D4) level] ∧
      w2.trace.filter Event.isReadOrWrite =
        [Event.digitalWrite (pin_number .D2) true,
         Event.digitalRead (pin_number .D4) level] ∧
      w2.api.pin_action_data =
        { pin := .D4, action := .READ, data := level } :=
  ⟨rfl, rfl,
    declare_write_read_scenario always_high 0 0 1 .D2 .D4 rfl rfl⟩

/-! ## set_pin_access -/

/-- C5.  On a finalized controller set_pin_access(pin, mode), for every pin
(so for every catalog pin) and every mode (so for every mode other than NONE),
returns with the controller state unchanged (every slot, the flag, the
record) and with exactly one call added to the trace: the println of the
diagnostic.  No driver call is made, and the function has no path to exit. -/
theorem set_pin_access_after_finalization (w : World) (pin : OAI_PINS)
    (mode : access)
    (hfin : w.api.pin_data.pin_access_finalized = true) :
    set_pin_access pin mode w =
      { api := w.api
        trace := w.trace ++ [Event.println
          "Cannot set pin access after the pins have been finalized"] } := by
  simp [set_pin_access, hfin, World.emit]

/-- C5 at demo_running, asking for WRITE on D4. -/
theorem set_pin_access_after_finalization_witness :
    demo_running.api.pin_data.pin_access_finalized = true ∧
    set_pin_access .D4 .WRITE demo_running =
      { api := demo_running.api
        trace := demo_running.trace ++ [Event.println
          "Cannot set pin access after the pins have been finalized"] } :=
  ⟨rfl, set_pin_access_after_finalization demo_running .D4 .WRITE rfl⟩

/-! ## pin_read_data and the sentinel -/

/-- C6.  pin_read_data() is -1 on a freshly constructed controller, and is -1
in the state left by any pin_write(pin, value) call that returns, whatever the
state before, the pin and the value. -/
theorem pin_read_data_sentinel (n : Nat) (w w1 : World) (pin : OAI_PINS)
    (value : Bool) (hret : pin_write pin value w = .returned w1) :
    pin_read_data (OAI_PINS_API.new n) = -1 ∧ pin_read_data w1.api = -1 := by
  refine ⟨rfl, ?_⟩
  unfold pin_write at hret
  cases hfin : auto_finalize w with
  | returned w0 =>
    rw [hfin] at hret
    simp only [Result.andThen, Result.returned.injEq] at hret
    subst hret
    rfl
  | exited st w0 =>
    rw [hfin] at hret
    simp [Result.andThen] at hret

/-- C6 at demo_configured: pin_write(D2, false) returns, and pin_read_data()
on the state it leaves is -1. -/
theorem pin_read_data_sentinel_witness :
    pin_write .D2 false demo_configured = .returned
      { api := { demo_configured.finalized.api with pin_action_data :=
          { pin := .D2, action := .WRITE, data := false } }
        trace := demo_configured.trace ++ [.digitalWrite 2 false] } ∧
    pin_read_data (OAI_PINS_API.new 0) = -1 ∧
    pin_read_data
      ({ demo_configured.finalized.api with pin_action_data :=
          { pin := .D2, action := .WRITE, data := false } }) = -1 :=
  ⟨rfl, pin_read_data_sentinel 0 demo_configured _ .D2 false rfl⟩

/-! ## finalize_pins with a declared pin -/

/-- C7.  For every state with a slot that is not NONE, finalize_pins returns
the state with the flag set, prints nothing (the trace is unchanged) and keeps
the slots and the record; running it a second time yields the same result as
running it once. -/
theorem finalize_pins_idempotent (w : World) (i : Fin 15)
    (h : w.api.pin_data.pin_access i ≠ access.NONE) :
    finalize_pins w = .returned w.finalized ∧
    (finalize_pins w).andThen finalize_pins = finalize_pins w ∧
    w.finalized.trace = w.trace ∧
    w.finalized.api.pin_data.pin_access_finalized = true ∧
    w.finalized.api.pin_data.pin_access = w.api.pin_data.pin_access ∧
    w.finalized.api.pin_action_data = w.api.pin_action_data := by
  have h1 : finalize_pins w = .returned w.finalized :=
    finalize_pins_of_declared w i h
  have h2 : finalize_pins w.finalized = .returned w.finalized :=
    finalize_pins_of_declared w.finalized i h
  refine ⟨h1, ?_, rfl, rfl, rfl, rfl⟩
  rw [h1]
  exact h2

/-- C7 at demo_configured, whose slot 0 is WRITE. -/
theorem finalize_pins_idempotent_witness :
    demo_configured.api.pin_data.pin_access 0 ≠ access.NONE ∧
    finalize_pins demo_configured = .returned demo_configured.finalized ∧
    (finalize_pins demo_configured).andThen finalize_pins
      = finalize_pins demo_configured :=
  ⟨by decide,
    (finalize_pins_idempotent demo_configured 0 (by decide)).1,
    (finalize_pins_idempotent demo_configured 0 (by decide)).2.1⟩

/-! ## set_pin_access before finalization -/

/-- C8.  On a controller that is not finalized, for every catalog pin p (the
identifier at index i of pins) and every mode m other than NONE,
set_pin_access(p, m) stores m in slot i, leaves the other slots, the flag and
the record as they were, and adds exactly one call to the trace:
pinMode(p, OUTPUT) for WRITE, pinMode(p, INPUT) for READ and for
READ_AND_WRITE. -/
theorem set_pin_access_records_and_configures (w : World) (i : Fin 15)
    (p : OAI_PINS) (m : access) (hp : pins[i.val]? = some p)
    (hfin : w.api.pin_data.pin_access_finalized = false)
    (hm : m ≠ .NONE) :
    set_pin_access p m w =
      { api :=
          { pin_data :=
              { pin_access := Function.update w.api.pin_data.pin_access i m
                past_end := w.api.pin_data.past_end
                pin_access_finalized := false }
            pin_action_data := w.api.pin_action_data }
        trace := w.trace ++ [Event.pinMode (pin_number p)
          (match m with
            | .WRITE => Direction.OUTPUT
            | .READ => Direction.INPUT
            | .READ_AND_WRITE => Direction.INPUT
            | .NONE => Direction.INPUT)] } := by
  rw [set_pin_access_unfinalized w i p m hp hfin hm]
  cases m <;> simp [set_pin_action, World.emit, ← hfin] at hm ⊢

/-- C8 at demo_configured, declaring D12 (slot 3) as WRITE. -/
theorem set_pin_access_records_and_configures_witness :
    pins[3]? = some OAI_PINS.D12 ∧
    demo_configured.api.pin_data.pin_access_finalized = false ∧
    access.WRITE ≠ access.NONE ∧
    set_pin_access .D12 .WRITE demo_configured =
      { api :=
          { pin_data :=
              { pin_access :=
                  Function.update demo_configured.api.pin_data.pin_access 3
                    .WRITE
                past_end := demo_configured.api.pin_data.past_end
                pin_access_finalized := false }
            pin_action_data := demo_configured.api.pin_action_data }
        trace := demo_configured.trace ++
          [Event.pinMode (pin_number .D12) Direction.OUTPUT] } :=
  ⟨rfl, rfl, by decide,
    set_pin_access_records_and_configures demo_configured 3 .D12 .WRITE rfl rfl
      (by decide)⟩

/-! ## set_pin_access with NONE -/

/-- C9, as stated, fails on a finalized controller: on demo_running, which is
finalized, set_pin_access(D2, NONE) prints the diagnostic of the finalization
check, so the trace gains a diagnostic line. -/
theorem set_pin_access_none_logs_when_finalized :
    demo_running.api.pin_data.pin_access_finalized = true ∧
    pins[0]? = some OAI_PINS.D2 ∧
    (set_pin_access .D2 .NONE demo_running).trace =
      demo_running.trace ++ [Event.println
        "Cannot set pin access after the pins have been finalized"] ∧
    ((set_pin_access .D2 .NONE demo_running).trace.filter
      Event.isDiagnostic).length = 1 ∧
    (demo_running.trace.filter Event.isDiagnostic).length = 0 := by
  decide

/-- C9, amended.  For every state and every pin (so every catalog pin),
set_pin_access(pin, NONE) leaves the controller state unchanged and makes no
driver call; it adds nothing to the trace when the controller is not
finalized, and exactly the println of the finalization diagnostic when it
is. -/
theorem set_pin_access_none (w : World) (pin : OAI_PINS) :
    (set_pin_access pin .NONE w).api = w.api ∧
    (set_pin_access pin .NONE w).trace =
      if w.api.pin_data.pin_access_finalized then
        w.trace ++ [Event.println
          "Cannot set pin access after the pins have been finalized"]
      else w.trace := by
  unfold set_pin_access
  cases w.api.pin_data.pin_access_finalized <;> simp [World.emit]

/-! ## pin_perform with a mismatched action -/

/-- C10.  In every state whose last-action record is non-empty (its pin is not
OAI_PIN_NONE), for every driver, every catalog pin p (the identifier at index
i of pins) whose slot holds a mode m other than READ_AND_WRITE, and every
requested action a other than m, pin_perform(p, a, d) returns with the state
and the trace exactly as they were: no driver call, no diagnostic, and the
record, the slots and the flag unchanged. -/
theorem pin_perform_mismatch_is_silent (drv : Driver) (w : World) (i : Fin 15)
    (p : OAI_PINS) (m a : access) (d : Bool)
    (hp : pins[i.val]? = some p)
    (hlast : last_pin w.api ≠ .OAI_PIN_NONE)
    (hm : w.api.pin_data.pin_access i = m)
    (hrw : m ≠ .READ_AND_WRITE) (ha : a ≠ m) :
    pin_perform drv p a d w = .returned w := by
  subst hm
  unfold pin_perform
  rw [if_pos hlast, pin_set_action_catalog w.api i p hp]
  rw [if_neg (by simpa [access_toNat_inj] using hrw)]
  rw [if_pos (by simpa [access_toNat_inj] using Ne.symm ha)]

/-- C10 at demo_running: READ_AND_WRITE requested on D4 (slot 1, declared
READ). -/
theorem pin_perform_mismatch_is_silent_witness :
    pins[1]? = some OAI_PINS.D4 ∧
    last_pin demo_running.api ≠ .OAI_PIN_NONE ∧
    demo_running.api.pin_data.pin_access 1 = .READ ∧
    access.READ ≠ access.READ_AND_WRITE ∧
    access.READ_AND_WRITE ≠ access.READ ∧
    pin_perform always_high .D4 .READ_AND_WRITE true demo_running
      = .returned demo_running :=
  ⟨rfl, by decide, rfl, by decide, by decide,
    pin_perform_mismatch_is_silent always_high demo_running 1 .D4 .READ
      .READ_AND_WRITE true rfl (by decide) rfl (by decide) (by decide)⟩

/-! ## Further lemmas: what a call leaves untouched -/

theorem set_pin_action_api (p : OAI_PINS) (a : access) (w : World) :
    (set_pin_action p a w).api = w.api := by
  cases a <;> rfl

theorem auto_finalize_of_finalized (w : World)
    (hfin : w.api.pin_data.pin_access_finalized = true) :
    auto_finalize w = .returned w := by
  simp [auto_finalize, hfin]

/-- With a declared pin, the READ_AND_WRITE case of the switch writes, waits
3000 and sets the pin to INPUT. -/
theorem do_rest_combined_of_declared (drv : Driver) (w : World) (j : Fin 15)
    (h : w.api.pin_data.pin_access j ≠ access.NONE) (p : OAI_PINS)
    (d : Bool) :
    do_rest drv p .READ_AND_WRITE d w = .returned
      { api := { w.finalized.api with pin_action_data :=
          { pin := p, action := .WRITE, data := d } }
        trace := w.trace ++
          [Event.digitalWrite (pin_number p) d, Event.delay 3000,
           Event.pinMode (pin_number p) .INPUT] } := by
  simp [do_rest, pin_write_of_declared w j h, Result.andThen, set_pin_action,
    World.emit]

theorem do_rest_pin_data_of_finalized (drv : Driver) (p : OAI_PINS)
    (a : access) (d : Bool) (w : World)
    (hfin : w.api.pin_data.pin_access_finalized = true) :
    (do_rest drv p a d w).world.api.pin_data = w.api.pin_data := by
  cases a <;>
    simp [do_rest, pin_read, pin_write, auto_finalize_of_finalized w hfin,
      Result.andThen, Result.world, set_pin_action, World.emit]

/-- On a READ_AND_WRITE pin with a non-empty record, pin_perform is the switch
run after the re-arm of source lines 162-166. -/
theorem pin_perform_on_read_and_write_pin (drv : Driver) (w : World)
    (i : Fin 15) (p : OAI_PINS) (a : access) (d : Bool)
    (hp : pins[i.val]? = some p)
    (hm : w.api.pin_data.pin_access i = .READ_AND_WRITE)
    (hlast : last_pin w.api ≠ .OAI_PIN_NONE) :
    pin_perform drv p a d w = do_rest drv p a d
      (if (last_pin w.api = p ∧ last_pin_access w.api ≠ a)
          ∨ last_pin w.api ≠ p then
        set_pin_action p (if a = .READ_AND_WRITE then .WRITE else a) w
      else w) := by
  unfold pin_perform
  rw [if_pos hlast, pin_set_action_catalog w.api i p hp, hm, if_pos rfl]
  by_cases hre : (last_pin w.api = p ∧ last_pin_access w.api ≠ a)
      ∨ last_pin w.api ≠ p
  · simp only [if_pos hre]
    by_cases ha : a = .READ_AND_WRITE <;> simp [ha]
  · simp only [if_neg hre]

theorem last_direction_after_pinMode (pin : Nat) (t : List Event)
    (m : Direction) :
    last_direction pin (t ++ [Event.pinMode pin m]) = some m := by
  simp [last_direction, List.foldl_append]

/-! ## The combined action -/

/-- C11.  For every state with a declared pin (slot j is not NONE), every
driver and every catalog pin p (the identifier at index i of pins) on which
pin_perform(p, READ_AND_WRITE, d) is not rejected (the record is empty, or
slot i is READ_AND_WRITE): the call reaches its switch in a state w0 that is
the state before the call, possibly with the re-arm pinMode(p, OUTPUT) added;
from there the switch returns after adding exactly digitalWrite(p, d),
delay(3000), pinMode(p, INPUT), in this order, and no digitalRead.  The record
is then (p, WRITE, d) and pin_read_data() is -1. -/
theorem combined_action_dispatch (drv : Driver) (w : World) (j i : Fin 15)
    (p : OAI_PINS) (d : Bool)
    (hdecl : w.api.pin_data.pin_access j ≠ access.NONE)
    (hp : pins[i.val]? = some p)
    (hnr : last_pin w.api = .OAI_PIN_NONE
      ∨ w.api.pin_data.pin_access i = .READ_AND_WRITE) :
    ∃ w0 : World,
      (w0 = w ∨ w0 = set_pin_action p .WRITE w) ∧
      pin_perform drv p .READ_AND_WRITE d w
        = do_rest drv p .READ_AND_WRITE d w0 ∧
      do_rest drv p .READ_AND_WRITE d w0 = .returned
        { api := { w.finalized.api with pin_action_data :=
            { pin := p, action := .WRITE, data := d } }
          trace := w0.trace ++
            [Event.digitalWrite (pin_number p) d, Event.delay 3000,
             Event.pinMode (pin_number p) .INPUT] } ∧
      pin_read_data { w.finalized.api with pin_action_data :=
        { pin := p, action := .WRITE, data := d } } = -1 := by
  by_cases hl : last_pin w.api = .OAI_PIN_NONE
  · exact ⟨w, Or.inl rfl, pin_perform_empty_record drv p _ d w hl,
      do_rest_combined_of_declared drv w j hdecl p d, rfl⟩
  · have hm : w.api.pin_data.pin_access i = .READ_AND_WRITE :=
      hnr.resolve_left hl
    by_cases hre : (last_pin w.api = p ∧ last_pin_access w.api ≠ .READ_AND_WRITE)
        ∨ last_pin w.api ≠ p
    · refine ⟨set_pin_action p .WRITE w, Or.inr rfl, ?_, ?_, rfl⟩
      · unfold pin_perform
        rw [if_pos hl, pin_set_action_catalog w.api i p hp, hm, if_pos rfl]
        simp only [if_pos hre]
        rfl
      · exact do_rest_combined_of_declared drv (set_pin_action p .WRITE w) j
          hdecl p d
    · refine ⟨w, Or.inl rfl, ?_, do_rest_combined_of_declared drv w j hdecl p d,
        rfl⟩
      unfold pin_perform
      rw [if_pos hl, pin_set_action_catalog w.api i p hp, hm, if_pos rfl]
      simp only [if_neg hre]

/-- C11 at demo_running, for D5 (slot 2, declared READ_AND_WRITE). -/
theorem combined_action_dispatch_witness :
    demo_running.api.pin_data.pin_access 0 ≠ access.NONE ∧
    pins[2]? = some OAI_PINS.D5 ∧
    demo_running.api.pin_data.pin_access 2 = .READ_AND_WRITE ∧
    ∃ w0 : World,
      (w0 = demo_running ∨ w0 = set_pin_action .D5 .WRITE demo_running) ∧
      pin_perform always_high .D5 .READ_AND_WRITE true demo_running
        = do_rest always_high .D5 .READ_AND_WRITE true w0 ∧
      do_rest always_high .D5 .READ_AND_WRITE true w0 = .returned
        { api := { demo_running.finalized.api with pin_action_data :=
            { pin := .D5, action := .WRITE, data := true } }
          trace := w0.trace ++
            [Event.digitalWrite (pin_number .D5) true, Event.delay 3000,
             Event.pinMode (pin_number .D5) .INPUT] } ∧
      pin_read_data { demo_running.finalized.api with pin_action_data :=
        { pin := .D5, action := .WRITE, data := true } } = -1 :=
  ⟨by decide, rfl, rfl,
    combined_action_dispatch always_high demo_running 0 2 .D5 true
      (by decide) rfl (Or.inr rfl)⟩

/-! ## Declared modes after finalization -/

/-- C12.  On a finalized controller, every public call (set_pin_access,
finalize_pins, pin_read, pin_read_data, pin_write, pin_perform) with any
arguments, whether it returns or exits, leaves all 15 slots of pin_access as
they were and the flag true. -/
theorem declared_modes_frozen_once_finalized (drv : Driver) (op : Op)
    (w : World) (hfin : w.api.pin_data.pin_access_finalized = true) :
    (run_op drv op w).world.api.pin_data.pin_access
      = w.api.pin_data.pin_access ∧
    (run_op drv op w).world.api.pin_data.pin_access_finalized = true := by
  have key : (run_op drv op w).world.api.pin_data = w.api.pin_data := by
    cases op with
    | set_pin_access pin mode =>
      simp [run_op, set_pin_access, hfin, Result.world, World.emit]
    | finalize_pins =>
      simp only [run_op, finalize_pins]
      split
      · rfl
      · simp [Result.world, ← hfin]
    | pin_read pin =>
      simp [run_op, pin_read, auto_finalize_of_finalized w hfin,
        Result.andThen, Result.world]
    | pin_read_data => rfl
    | pin_write pin data =>
      simp [run_op, pin_write, auto_finalize_of_finalized w hfin,
        Result.andThen, Result.world]
    | pin_perform pin action data =>
      have hdo : ∀ w0 : World, w0.api = w.api →
          (do_rest drv pin action data w0).world.api.pin_data
            = w.api.pin_data := by
        intro w0 h0
        rw [do_rest_pin_data_of_finalized drv pin action data w0
          (by rw [h0]; exact hfin), h0]
      simp only [run_op, pin_perform]
      split
      · split
        · split
          · split
            · exact hdo _ (set_pin_action_api _ _ _)
            · exact hdo _ (set_pin_action_api _ _ _)
          · exact hdo _ rfl
        · split
          · rfl
          · exact hdo _ rfl
      · exact hdo _ rfl
  rw [key]
  exact ⟨rfl, hfin⟩

/-- C12 at demo_running, for pin_perform(D5, READ_AND_WRITE, true). -/
theorem declared_modes_frozen_once_finalized_witness :
    demo_running.api.pin_data.pin_access_finalized = true ∧
    (run_op always_high (.pin_perform .D5 .READ_AND_WRITE true)
        demo_running).world.api.pin_data.pin_access
      = demo_running.api.pin_data.pin_access ∧
    (run_op always_high (.pin_perform .D5 .READ_AND_WRITE true)
        demo_running).world.api.pin_data.pin_access_finalized = true :=
  ⟨rfl, declared_modes_frozen_once_finalized always_high
    (.pin_perform .D5 .READ_AND_WRITE true) demo_running rfl⟩

/-! ## pin_read and pin_write check no mode -/

/-- C13.  For every state with a declared pin (slot j is not NONE), every
driver and every pin, whatever its own slot holds and whatever the record
was: pin_read(pin) returns, adds exactly one call, digitalRead(pin), to the
trace, sets the flag, and replaces the record by (pin, READ, v) with v the
level the driver returned; pin_read_data() is then 1 if v and 0 if not. -/
theorem pin_read_checks_no_mode (drv : Driver) (w : World) (j : Fin 15)
    (pin : OAI_PINS)
    (hdecl : w.api.pin_data.pin_access j ≠ access.NONE) :
    pin_read drv pin w = .returned
      { api := { w.finalized.api with pin_action_data :=
          { pin := pin, action := .READ,
            data := drv w.trace (pin_number pin) } }
        trace := w.trace ++
          [Event.digitalRead (pin_number pin)
            (drv w.trace (pin_number pin))] } ∧
    pin_read_data { w.finalized.api with pin_action_data :=
        { pin := pin, action := .READ,
          data := drv w.trace (pin_number pin) } }
      = (if drv w.trace (pin_number pin) then 1 else 0) :=
  ⟨pin_read_of_declared drv w j hdecl pin, rfl⟩

/-- C13 at demo_running, reading D2, a pin declared WRITE. -/
theorem pin_read_checks_no_mode_witness :
    demo_running.api.pin_data.pin_access 0 ≠ access.NONE ∧
    demo_running.api.pin_data.pin_access 0 = access.WRITE ∧
    pin_read always_high .D2 demo_running = .returned
      { api := { demo_running.finalized.api with pin_action_data :=
          { pin := .D2, action := .READ,
            data := always_high demo_running.trace (pin_number .D2) } }
        trace := demo_running.trace ++
          [Event.digitalRead (pin_number .D2)
            (always_high demo_running.trace (pin_number .D2))] } ∧
    pin_read_data { demo_running.finalized.api with pin_action_data :=
        { pin := .D2, action := .READ,
          data := always_high demo_running.trace (pin_number .D2) } }
      = (if always_high demo_running.trace (pin_number .D2) then 1 else 0) :=
  ⟨by decide, rfl,
    pin_read_checks_no_mode always_high demo_running 0 .D2 (by decide)⟩

/-- C14.  For every state with a declared pin (slot j is not NONE), every pin,
whatever its own slot holds, every value and whatever the record was:
pin_write(pin, value) returns, adds exactly one call,
digitalWrite(pin, value), to the trace, sets the flag, and replaces the record
by (pin, WRITE, value). -/
theorem pin_write_checks_no_mode (w : World) (j : Fin 15) (pin : OAI_PINS)
    (value : Bool)
    (hdecl : w.api.pin_data.pin_access j ≠ access.NONE) :
    pin_write pin value w = .returned
      { api := { w.finalized.api with pin_action_data :=
          { pin := pin, action := .WRITE, data := value } }
        trace := w.trace ++ [Event.digitalWrite (pin_number pin) value] } :=
  pin_write_of_declared w j hdecl pin value

/-- C14 at demo_running, writing D4, a pin declared READ. -/
theorem pin_write_checks_no_mode_witness :
    demo_running.api.pin_data.pin_access 1 ≠ access.NONE ∧
    demo_running.api.pin_data.pin_access 1 = access.READ ∧
    pin_write .D4 true demo_running = .returned
      { api := { demo_running.finalized.api with pin_action_data :=
          { pin := .D4, action := .WRITE, data := true } }
        trace := demo_running.trace ++
          [Event.digitalWrite (pin_number .D4) true] } :=
  ⟨by decide, rfl, pin_write_checks_no_mode demo_running 1 .D4 true (by decide)⟩

/-! ## Re-arming and the direction of the pin -/

/-- C15, as stated, fails in two reachable states, both for D5 (slot 2,
declared READ_AND_WRITE).  On demo_configured the record is still empty:
pin_perform(D5, WRITE, true) adds only digitalWrite(5, true), while the last
pinMode on pin 5 was INPUT.  On demo_after_combined the record is
(D5, WRITE, true), left by a combined action that ended with pinMode(5, INPUT):
pin_perform(D5, WRITE, false) finds the same pin and the same action, adds
only digitalWrite(5, false), and the last pinMode on pin 5 was INPUT. -/
theorem write_on_pin_left_as_input :
    Reachable always_high demo_configured ∧
    pins[2]? = some OAI_PINS.D5 ∧
    demo_configured.api.pin_data.pin_access 2 = .READ_AND_WRITE ∧
    added_calls demo_configured
        (pin_perform always_high .D5 .WRITE true demo_configured)
      = [Event.digitalWrite 5 true] ∧
    last_direction 5 demo_configured.trace = some .INPUT ∧
    direction_ok (pin_number .D5) demo_configured.trace
      (added_calls demo_configured
        (pin_perform always_high .D5 .WRITE true demo_configured)) = false ∧
    Reachable always_high demo_after_combined ∧
    demo_after_combined.api.pin_data.pin_access 2 = .READ_AND_WRITE ∧
    demo_after_combined.api.pin_action_data
      = { pin := .D5, action := .WRITE, data := true } ∧
    added_calls demo_after_combined
        (pin_perform always_high .D5 .WRITE false demo_after_combined)
      = [Event.digitalWrite 5 false] ∧
    last_direction 5 demo_after_combined.trace = some .INPUT ∧
    direction_ok (pin_number .D5) demo_after_combined.trace
      (added_calls demo_after_combined
        (pin_perform always_high .D5 .WRITE false demo_after_combined))
      = false :=
  ⟨⟨0, [.set_pin_access .D2 .WRITE, .set_pin_access .D4 .READ,
      .set_pin_access .D5 .READ_AND_WRITE], rfl⟩,
    rfl, rfl, by decide, by decide, by decide,
    ⟨0, [.set_pin_access .D2 .WRITE, .set_pin_access .D4 .READ,
      .set_pin_access .D5 .READ_AND_WRITE, .pin_write .D2 true,
      .pin_perform .D5 .READ_AND_WRITE true], rfl⟩,
    rfl, rfl, by decide, by decide, by decide⟩

/-- C15, amended.  For every state whose record is non-empty, every driver and
every catalog pin p (the identifier at index i of pins) whose slot is
READ_AND_WRITE: when p differs from the last pin or the requested action a
differs from the last action, every digitalWrite on p that pin_perform(p, a, d)
makes finds OUTPUT as the most recent pinMode of p, and every digitalRead on p
that it makes finds INPUT. -/
theorem rearm_sets_matching_direction (drv : Driver) (w : World) (i : Fin 15)
    (p : OAI_PINS) (a : access) (d : Bool)
    (hp : pins[i.val]? = some p)
    (hm : w.api.pin_data.pin_access i = .READ_AND_WRITE)
    (hlast : last_pin w.api ≠ .OAI_PIN_NONE)
    (hre : p ≠ last_pin w.api ∨ a ≠ last_pin_access w.api) :
    direction_ok (pin_number p) w.trace
      (added_calls w (pin_perform drv p a d w)) = true := by
  have hdecl : w.api.pin_data.pin_access i ≠ .NONE := by rw [hm]; decide
  have hre2 : (last_pin w.api = p ∧ last_pin_access w.api ≠ a)
      ∨ last_pin w.api ≠ p := by
    by_cases h : last_pin w.api = p
    · rcases hre with h1 | h1
      · exact absurd h.symm h1
      · exact Or.inl ⟨h, fun e => h1 e.symm⟩
    · exact Or.inr h
  rw [pin_perform_on_read_and_write_pin drv w i p a d hp hm hlast, if_pos hre2]
  cases a with
  | WRITE =>
    have e1 : do_rest drv p .WRITE d
        (set_pin_action p (if access.WRITE = .READ_AND_WRITE then .WRITE
          else .WRITE) w) = pin_write p d (set_pin_action p .WRITE w) := rfl
    rw [e1, pin_write_of_declared (set_pin_action p .WRITE w) i hdecl p d]
    simp [added_calls, Result.world, set_pin_action, World.emit, direction_ok,
      call_matches_direction, last_direction_after_pinMode]
  | READ =>
    have e1 : do_rest drv p .READ d
        (set_pin_action p (if access.READ = .READ_AND_WRITE then .WRITE
          else .READ) w) = pin_read drv p (set_pin_action p .READ w) := rfl
    rw [e1, pin_read_of_declared drv (set_pin_action p .READ w) i hdecl p]
    simp [added_calls, Result.world, set_pin_action, World.emit, direction_ok,
      call_matches_direction, last_direction_after_pinMode]
  | READ_AND_WRITE =>
    rw [if_pos rfl,
      do_rest_combined_of_declared drv (set_pin_action p .WRITE w) i hdecl p d]
    simp [added_calls, Result.world, set_pin_action, World.emit, direction_ok,
      call_matches_direction, last_direction_after_pinMode]
  | NONE =>
    simp [do_rest, set_pin_action, added_calls, Result.world, direction_ok]

/-- The amended C15 at demo_running: WRITE on D5 after a write on D2. -/
theorem rearm_sets_matching_direction_witness :
    pins[2]? = some OAI_PINS.D5 ∧
    demo_running.api.pin_data.pin_access 2 = .READ_AND_WRITE ∧
    last_pin demo_running.api ≠ .OAI_PIN_NONE ∧
    (OAI_PINS.D5 ≠ last_pin demo_running.api
      ∨ access.WRITE ≠ last_pin_access demo_running.api) ∧
    direction_ok (pin_number .D5) demo_running.trace
      (added_calls demo_running
        (pin_perform always_high .D5 .WRITE true demo_running)) = true :=
  ⟨rfl, rfl, by decide, by decide,
    rearm_sets_matching_direction always_high demo_running 2 .D5 .WRITE true
      rfl rfl (by decide) (by decide)⟩

/-- C16, as stated, fails for the request NONE: on demo_running the last
action is (D2, WRITE, true), D5 (slot 2) is declared READ_AND_WRITE and differs
from the last pin, yet pin_perform(D5, NONE, false) makes no call at all, so no
pinMode. -/
theorem no_rearm_for_none_request :
    pins[2]? = some OAI_PINS.D5 ∧
    demo_running.api.pin_data.pin_access 2 = .READ_AND_WRITE ∧
    last_pin demo_running.api = .D2 ∧
    last_pin_access demo_running.api = .WRITE ∧
    (OAI_PINS.D5 ≠ last_pin demo_running.api
      ∨ access.NONE ≠ last_pin_access demo_running.api) ∧
    added_calls demo_running
      (pin_perform always_high .D5 .NONE false demo_running) = [] := by
  decide

/-- C16, amended.  For every state whose record is non-empty (last pin l, last
action b), every driver and every catalog pin p (the identifier at index i of
pins) whose slot is READ_AND_WRITE, pin_perform(p, a, d) is its switch run from
the state of the call with these calls added first: if p differs from l or a
differs from b, one pinMode(p, OUTPUT) for a = WRITE and for
a = READ_AND_WRITE, one pinMode(p, INPUT) for a = READ, and nothing for
a = NONE; if p = l and a = b, nothing. -/
theorem rearm_rule (drv : Driver) (w : World) (i : Fin 15) (p : OAI_PINS)
    (a : access) (d : Bool)
    (hp : pins[i.val]? = some p)
    (hm : w.api.pin_data.pin_access i = .READ_AND_WRITE)
    (hlast : last_pin w.api ≠ .OAI_PIN_NONE) :
    pin_perform drv p a d w = do_rest drv p a d
      { api := w.api
        trace := w.trace ++
          (if p ≠ last_pin w.api ∨ a ≠ last_pin_access w.api then
            (match a with
              | .WRITE => [Event.pinMode (pin_number p) .OUTPUT]
              | .READ_AND_WRITE => [Event.pinMode (pin_number p) .OUTPUT]
              | .READ => [Event.pinMode (pin_number p) .INPUT]
              | .NONE => [])
          else []) } := by
  rw [pin_perform_on_read_and_write_pin drv w i p a d hp hm hlast]
  by_cases hre : p ≠ last_pin w.api ∨ a ≠ last_pin_access w.api
  · have hre2 : (last_pin w.api = p ∧ last_pin_access w.api ≠ a)
        ∨ last_pin w.api ≠ p := by
      by_cases h : last_pin w.api = p
      · rcases hre with h1 | h1
        · exact absurd h.symm h1
        · exact Or.inl ⟨h, fun e => h1 e.symm⟩
      · exact Or.inr h
    rw [if_pos hre2, if_pos hre]
    cases a <;> simp [set_pin_action, World.emit]
  · have hre2 : ¬ ((last_pin w.api = p ∧ last_pin_access w.api ≠ a)
        ∨ last_pin w.api ≠ p) := by
      rintro (⟨_, h2⟩ | h1)
      · exact hre (Or.inr fun e => h2 e.symm)
      · exact hre (Or.inl fun e => h1 e.symm)
    rw [if_neg hre2, if_neg hre]
    simp

/-- The amended C16 at demo_running: READ on D5 after a write on D2. -/
theorem rearm_rule_witness :
    pins[2]? = some OAI_PINS.D5 ∧
    demo_running.api.pin_data.pin_access 2 = .READ_AND_WRITE ∧
    last_pin demo_running.api ≠ .OAI_PIN_NONE ∧
    pin_perform always_high .D5 .READ false demo_running
      = do_rest always_high .D5 .READ false
        { api := demo_running.api
          trace := demo_running.trace ++
            (if OAI_PINS.D5 ≠ last_pin demo_running.api
                ∨ access.READ ≠ last_pin_access demo_running.api then
              (match access.READ with
                | .WRITE => [Event.pinMode (pin_number .D5) .OUTPUT]
                | .READ_AND_WRITE => [Event.pinMode (pin_number .D5) .OUTPUT]
                | .READ => [Event.pinMode (pin_number .D5) .INPUT]
                | .NONE => [])
            else []) } :=
  ⟨rfl, rfl, by decide,
    rearm_rule always_high demo_running 2 .D5 .READ false rfl rfl (by decide)⟩

/-! ## Reads of pin_access in finalize_pins -/

/-- C17.  On a freshly constructed controller every slot is NONE, and
finalize_pins reads pin_access at the indices 0, 1, ..., 14 in its loop and
then at index 15 in the test that follows: not every index it reads is below
15. -/
theorem finalize_pins_reads_past_the_array (n : Nat) :
    (∀ i : Fin 15, (OAI_PINS_API.new n).pin_data.pin_access i = access.NONE) ∧
    finalize_pins_reads (OAI_PINS_API.new n).pin_data
      = [0, 1, 2, 3, 4, 5, 6, 7, 8, 9, 10, 11, 12, 13, 14, 15] ∧
    ¬ (∀ k ∈ finalize_pins_reads (OAI_PINS_API.new n).pin_data, k < 15) := by
  have h : finalize_pins_reads (OAI_PINS_API.new n).pin_data
      = [0, 1, 2, 3, 4, 5, 6, 7, 8, 9, 10, 11, 12, 13, 14, 15] := rfl
  refine ⟨fun _ => rfl, h, ?_⟩
  rw [h]
  decide

/-! ## The record in reachable states -/

theorem auto_finalize_returned (w w1 : World)
    (h : auto_finalize w = .returned w1) : w1 = w.finalized := by
  unfold auto_finalize at h
  cases hf : w.api.pin_data.pin_access_finalized
  · simp only [hf, Bool.not_false, if_true, finalize_pins] at h
    split at h
    · cases h
    · cases h
      rfl
  · simp only [hf, Bool.not_true] at h
    cases h
    simp [World.finalized, ← hf]

theorem record_invariant_pin_write (p : OAI_PINS) (d : Bool) (w w1 : World)
    (h : pin_write p d w = .returned w1) :
    w1.api.pin_data.pin_access_finalized = true ∧
    w1.api.pin_action_data.action = .WRITE := by
  unfold pin_write at h
  cases hf : auto_finalize w with
  | returned w0 =>
    rw [hf] at h
    simp only [Result.andThen, Result.returned.injEq] at h
    subst h
    rw [auto_finalize_returned w w0 hf]
    exact ⟨rfl, rfl⟩
  | exited st w0 =>
    rw [hf] at h
    simp [Result.andThen] at h

theorem record_invariant_pin_read (drv : Driver) (p : OAI_PINS)
    (w w1 : World) (h : pin_read drv p w = .returned w1) :
    w1.api.pin_data.pin_access_finalized = true ∧
    w1.api.pin_action_data.action = .READ := by
  unfold pin_read at h
  cases hf : auto_finalize w with
  | returned w0 =>
    rw [hf] at h
    simp only [Result.andThen, Result.returned.injEq] at h
    subst h
    rw [auto_finalize_returned w w0 hf]
    exact ⟨rfl, rfl⟩
  | exited st w0 =>
    rw [hf] at h
    simp [Result.andThen] at h

/-- One public call that returns keeps this: a record whose action is not NONE
comes with the flag set, and the recorded action is never READ_AND_WRITE. -/
theorem record_invariant_step (drv : Driver) (op : Op) (w w1 : World)
    (h : run_op drv op w = .returned w1)
    (hinv : (w.api.pin_action_data.action ≠ .NONE →
        w.api.pin_data.pin_access_finalized = true) ∧
      w.api.pin_action_data.action ≠ .READ_AND_WRITE) :
    (w1.api.pin_action_data.action ≠ .NONE →
        w1.api.pin_data.pin_access_finalized = true) ∧
      w1.api.pin_action_data.action ≠ .READ_AND_WRITE := by
  have hdo : ∀ (p : OAI_PINS) (a : access) (d : Bool) (w0 : World),
      w0.api = w.api → do_rest drv p a d w0 = .returned w1 →
      (w1.api.pin_action_data.action ≠ .NONE →
        w1.api.pin_data.pin_access_finalized = true) ∧
      w1.api.pin_action_data.action ≠ .READ_AND_WRITE := by
    intro p a d w0 h0 hr
    cases a with
    | READ =>
      obtain ⟨h1, h2⟩ := record_invariant_pin_read drv p w0 w1 hr
      exact ⟨fun _ => h1, by rw [h2]; decide⟩
    | WRITE =>
      obtain ⟨h1, h2⟩ := record_invariant_pin_write p d w0 w1 hr
      exact ⟨fun _ => h1, by rw [h2]; decide⟩
    | READ_AND_WRITE =>
      simp only [do_rest] at hr
      cases hw : pin_write p d w0 with
      | returned w2 =>
        rw [hw] at hr
        simp only [Result.andThen, Result.returned.injEq] at hr
        obtain ⟨h1, h2⟩ := record_invariant_pin_write p d w0 w2 hw
        subst hr
        exact ⟨fun _ => h1, by
          show w2.api.pin_action_data.action ≠ _
          rw [h2]; decide⟩
      | exited st w2 =>
        rw [hw] at hr
        simp [Result.andThen] at hr
    | NONE =>
      simp only [do_rest, Result.returned.injEq] at hr
      subst hr
      rw [h0]
      exact hinv
  cases op with
  | set_pin_access pin mode =>
    simp only [run_op, Result.returned.injEq] at h
    subst h
    unfold set_pin_access
    split
    · exact hinv
    · split
      · exact hinv
      · rw [set_pin_action_api]
        unfold OAI_PINS_DATA.write_access
        split <;> exact hinv
  | finalize_pins =>
    simp only [run_op, finalize_pins] at h
    split at h
    · cases h
    · cases h
      exact ⟨fun _ => rfl, hinv.2⟩
  | pin_read pin =>
    obtain ⟨h1, h2⟩ := record_invariant_pin_read drv pin w w1 h
    exact ⟨fun _ => h1, by rw [h2]; decide⟩
  | pin_read_data =>
    simp only [run_op, Result.returned.injEq] at h
    subst h
    exact hinv
  | pin_write pin data =>
    obtain ⟨h1, h2⟩ := record_invariant_pin_write pin data w w1 h
    exact ⟨fun _ => h1, by rw [h2]; decide⟩
  | pin_perform pin action data =>
    simp only [run_op, pin_perform] at h
    split at h
    · split at h
      · split at h
        · split at h
          · exact hdo _ _ _ _ (set_pin_action_api _ _ _) h
          · exact hdo _ _ _ _ (set_pin_action_api _ _ _) h
        · exact hdo _ _ _ _ rfl h
      · split at h
        · cases h
          exact hinv
        · exact hdo _ _ _ _ rfl h
    · exact hdo _ _ _ _ rfl h

/-- In every reachable state, a record whose action is not NONE comes with the
flag set, and the recorded action is never READ_AND_WRITE. -/
theorem record_invariant_of_reachable (drv : Driver) (w : World)
    (h : Reachable drv w) :
    (w.api.pin_action_data.action ≠ .NONE →
        w.api.pin_data.pin_access_finalized = true) ∧
      w.api.pin_action_data.action ≠ .READ_AND_WRITE := by
  obtain ⟨n, ops, hrun⟩ := h
  have gen : ∀ (ops : List Op) (w0 : World),
      ((w0.api.pin_action_data.action ≠ .NONE →
        w0.api.pin_data.pin_access_finalized = true) ∧
      w0.api.pin_action_data.action ≠ .READ_AND_WRITE) →
      run_ops drv ops w0 = .returned w →
      (w.api.pin_action_data.action ≠ .NONE →
        w.api.pin_data.pin_access_finalized = true) ∧
      w.api.pin_action_data.action ≠ .READ_AND_WRITE := by
    intro ops
    induction ops with
    | nil =>
      intro w0 h0 hr
      simp only [run_ops, Result.returned.injEq] at hr
      subst hr
      exact h0
    | cons op rest ih =>
      intro w0 h0 hr
      simp only [run_ops] at hr
      cases hop : run_op drv op w0 with
      | returned w2 =>
        rw [hop] at hr
        exact ih w2 (record_invariant_step drv op w0 w2 hop h0) hr
      | exited st w2 =>
        rw [hop] at hr
        simp [Result.andThen] at hr
  exact gen ops (World.fresh n)
    ⟨fun h => absurd rfl h, fun h => access.noConfusion h⟩ hrun

/-- C18.  The state demo_unconfigured_read is reachable (pin_read(D2) on a
freshly constructed controller whose word past the array is 0); its record is
(D2, READ, true) and its flag is true, yet every one of its 15 slots is
NONE. -/
theorem record_set_with_nothing_declared :
    Reachable always_high demo_unconfigured_read ∧
    demo_unconfigured_read.api.pin_action_data
      = { pin := .D2, action := .READ, data := true } ∧
    demo_unconfigured_read.api.pin_data.pin_access_finalized = true ∧
    (∀ i : Fin 15,
      demo_unconfigured_read.api.pin_data.pin_access i = access.NONE) ∧
    demo_unconfigured_read.trace = [Event.digitalRead 2 true] :=
  ⟨⟨0, [.pin_read .D2], rfl⟩, rfl, rfl, fun _ => rfl, rfl⟩

/-! ## Lookup of the declared mode -/

/-- C19.  The 15 identifiers of pins are pairwise distinct.  On a controller
that is not finalized, for every catalog pin p (the identifier at index i of
pins) and every mode m other than NONE: the index loop finds p below 15, after
set_pin_access(p, m) the lookup pin_set_action(p) returns m, and for every
other catalog pin q the lookup pin_set_action(q) returns what it returned
before the call. -/
theorem declared_mode_lookup_round_trip (w : World) (i : Fin 15)
    (p : OAI_PINS) (m : access) (hp : pins[i.val]? = some p)
    (hfin : w.api.pin_data.pin_access_finalized = false)
    (hm : m ≠ .NONE) :
    pins.Nodup ∧
    pin_index p < 15 ∧
    pin_set_action (set_pin_access p m w).api p = m.toNat ∧
    ∀ (j : Fin 15) (q : OAI_PINS), pins[j.val]? = some q → q ≠ p →
      pin_set_action (set_pin_access p m w).api q = pin_set_action w.api q := by
  have hapi : (set_pin_access p m w).api =
      { w.api with pin_data := { w.api.pin_data with
          pin_access := Function.update w.api.pin_data.pin_access i m } } := by
    rw [set_pin_access_unfinalized w i p m hp hfin hm, set_pin_action_api]
  refine ⟨by decide, ?_, ?_, ?_⟩
  · rw [pin_index_of_catalog i p hp]
    exact i.isLt
  · rw [pin_set_action_catalog _ i p hp, hapi]
    simp
  · intro j q hq hne
    have hji : j ≠ i := by
      intro h
      subst h
      rw [hp] at hq
      exact hne (Option.some.inj hq).symm
    rw [pin_set_action_catalog _ j q hq, pin_set_action_catalog _ j q hq, hapi]
    simp [Function.update_noteq hji]

/-- C19 at demo_configured, declaring D12 (slot 3) as READ. -/
theorem declared_mode_lookup_round_trip_witness :
    pins[3]? = some OAI_PINS.D12 ∧
    demo_configured.api.pin_data.pin_access_finalized = false ∧
    access.READ ≠ access.NONE ∧
    pins.Nodup ∧
    pin_index .D12 < 15 ∧
    pin_set_action (set_pin_access .D12 .READ demo_configured).api .D12
      = access.READ.toNat ∧
    ∀ (j : Fin 15) (q : OAI_PINS), pins[j.val]? = some q → q ≠ .D12 →
      pin_set_action (set_pin_access .D12 .READ demo_configured).api q
        = pin_set_action demo_configured.api q :=
  ⟨rfl, rfl, by decide,
    declared_mode_lookup_round_trip demo_configured 3 .D12 .READ rfl rfl
      (by decide)⟩

end WROOM_ESP32
